import Mathlib

/-!
Verification of the go-sccp core (SCCP codec and SSN state manager) against
its natural-language specification.

The Go sources embedded here are sccp.go, udt.go and the SCMG/state-manager
file. Buffers are lists of octet values (Nat, kept below 256 by hypotheses
mirroring the Go byte types). Fallible operations return Except. The external
parameter sub-codecs (package params of the same repository, not part of the
analysed sources) are modelled from the specification where indicated.
-/

/-- Read of octet i of a buffer, Go style b[i]. Every use in the embedded
code is guarded by the same bounds checks the Go code performs, so the
default value never influences a result. -/
def byteAt (b : List Nat) (i : Nat) : Nat := b.getD i 0

/-- Go slice expression b[i:j] as a list. -/
def sliceL (b : List Nat) (i j : Nat) : List Nat := (b.drop i).take (j - i)

/-- Error outcomes of the embedded codec code: eof models io.ErrUnexpectedEOF,
outOfRange models a Go slice-bounds panic. -/
inductive CodecErr
  | eof
  | outOfRange
deriving DecidableEq

/-! ## SCMG (SCCP management message, Table 23 of Q.713) -/

/-- Wire value of SCMGTypeSSA. -/
def SCMGTypeSSA : Nat := 1

/-- Wire value of SCMGTypeSSC, the only type with a congestion octet. -/
def SCMGTypeSSC : Nat := 6

/-- The SCMG record of the source. Field typ is the Go field Type (a Lean
keyword); the other fields keep their source names, with smi and scl
abbreviating SubsystemMultiplicityIndicator and SCCPCongestionLevel. -/
structure SCMG where
  typ : Nat
  AffectedSSN : Nat
  AffectedPC : Nat
  smi : Nat
  scl : Nat
deriving DecidableEq

/-- SCMG.MarshalLen of the source: 5 octets, one more for SSC. -/
def SCMG.MarshalLen (s : SCMG) : Nat :=
  5 + (if s.typ = SCMGTypeSSC then 1 else 0)

/-- SCMG.MarshalTo of the source: writes type, SSN, the point code in
little-endian order, the SMI octet, and for SSC the congestion octet; the
rest of the buffer keeps its previous content. -/
def SCMG.MarshalTo (s : SCMG) (b : List Nat) : Except CodecErr (List Nat) :=
  if b.length < s.MarshalLen then .error .eof
  else .ok ([s.typ % 256, s.AffectedSSN % 256,
             s.AffectedPC % 256, s.AffectedPC / 256 % 256, s.smi % 256]
        ++ (if s.typ = SCMGTypeSSC then [s.scl % 256] else [])
        ++ b.drop s.MarshalLen)

/-- SCMG.MarshalBinary of the source: MarshalTo into a fresh zero buffer of
MarshalLen octets. -/
def SCMG.MarshalBinary (s : SCMG) : Except CodecErr (List Nat) :=
  s.MarshalTo (List.replicate s.MarshalLen 0)

/-- SCMG.UnmarshalBinary of the source. The Go method mutates its receiver
field by field, so the embedding takes the receiver state and returns the
updated state together with the optional error: on a short SSC buffer the
first four fields are already overwritten when the error is returned. -/
def SCMG.UnmarshalBinary (s : SCMG) (b : List Nat) : SCMG × Option CodecErr :=
  if b.length < 5 then (s, some .eof)
  else
    let s1 : SCMG :=
      { typ := byteAt b 0
        AffectedSSN := byteAt b 1
        AffectedPC := byteAt b 2 + 256 * byteAt b 3
        smi := byteAt b 4
        scl := s.scl }
    if s1.typ = SCMGTypeSSC then
      if b.length < 6 then (s1, some .eof)
      else ({ s1 with scl := byteAt b 5 }, none)
    else (s1, none)

/-- ParseSCMG of the source: UnmarshalBinary on a zero-valued receiver. -/
def ParseSCMG (b : List Nat) : Except CodecErr SCMG :=
  match SCMG.UnmarshalBinary ⟨0, 0, 0, 0, 0⟩ b with
  | (_, some e) => .error e
  | (s, none) => .ok s

/-- C4: SCMG round-trip. For every well-formed SCMG value (octet-sized
fields, point code below 65536, zero congestion level unless the type is
SSC), decoding the MarshalBinary output reconstructs the value exactly. -/
theorem c4_scmg_roundtrip (s : SCMG)
    (ht : s.typ < 256) (ha : s.AffectedSSN < 256) (hp : s.AffectedPC < 65536)
    (hm : s.smi < 256) (hc : s.scl < 256)
    (h0 : s.typ ≠ SCMGTypeSSC → s.scl = 0) :
    Except.bind (SCMG.MarshalBinary s) ParseSCMG = .ok s := by
  obtain ⟨t, a, p, m, c⟩ := s
  dsimp only at ht ha hp hm hc h0
  by_cases h6 : t = SCMGTypeSSC
  · subst h6
    have e1 : SCMG.MarshalBinary ⟨SCMGTypeSSC, a, p, m, c⟩ =
        .ok [6, a, p % 256, p / 256 % 256, m, c] := by
      simp [SCMG.MarshalBinary, SCMG.MarshalTo, SCMG.MarshalLen, SCMGTypeSSC,
        Nat.mod_eq_of_lt ha, Nat.mod_eq_of_lt hm, Nat.mod_eq_of_lt hc]
    rw [e1]
    show ParseSCMG [6, a, p % 256, p / 256 % 256, m, c] = _
    simp [ParseSCMG, SCMG.UnmarshalBinary, byteAt, SCMGTypeSSC, SCMG.mk.injEq]
    omega
  · have hc0 : c = 0 := h0 h6
    subst hc0
    have e1 : SCMG.MarshalBinary ⟨t, a, p, m, 0⟩ =
        .ok [t, a, p % 256, p / 256 % 256, m] := by
      simp [SCMG.MarshalBinary, SCMG.MarshalTo, SCMG.MarshalLen, if_neg h6,
        Nat.mod_eq_of_lt ht, Nat.mod_eq_of_lt ha, Nat.mod_eq_of_lt hm]
    rw [e1]
    show ParseSCMG [t, a, p % 256, p / 256 % 256, m] = _
    simp [ParseSCMG, SCMG.UnmarshalBinary, byteAt, if_neg h6, SCMG.mk.injEq]
    omega

/-- C4 witness: the round-trip theorem applied to the SSA message of
scenario S1 of the specification. -/
theorem c4_scmg_roundtrip_witness :
    Except.bind (SCMG.MarshalBinary ⟨1, 8, 4660, 0, 0⟩) ParseSCMG =
      .ok ⟨1, 8, 4660, 0, 0⟩ :=
  c4_scmg_roundtrip ⟨1, 8, 4660, 0, 0⟩ (by decide) (by decide) (by decide)
    (by decide) (by decide) (fun _ => rfl)

/-- C5: SCMG wire-length invariant and truncation error. MarshalLen is 5 for
every type except SSC and 6 for SSC, MarshalBinary emits exactly that many
octets, decoding demands at least 5 octets, and a 5-octet buffer whose first
octet is SSC fails with the UnexpectedEnd error. -/
theorem c5_scmg_length (s : SCMG) (b : List Nat) :
    (s.MarshalLen = if s.typ = SCMGTypeSSC then 6 else 5) ∧
    (Except.map List.length (SCMG.MarshalBinary s) = .ok s.MarshalLen) ∧
    (b.length < 5 → ParseSCMG b = .error .eof) ∧
    (b.length = 5 → byteAt b 0 = SCMGTypeSSC → ParseSCMG b = .error .eof) := by
  refine ⟨?_, ?_, ?_, ?_⟩
  · by_cases h6 : s.typ = SCMGTypeSSC <;> simp [SCMG.MarshalLen, h6]
  · by_cases h6 : s.typ = SCMGTypeSSC <;>
      simp [SCMG.MarshalBinary, SCMG.MarshalTo, SCMG.MarshalLen, h6, Except.map]
  · intro hshort
    simp [ParseSCMG, SCMG.UnmarshalBinary, if_pos hshort]
  · intro hlen hssc
    have hs : ¬ b.length < 5 := by omega
    simp [ParseSCMG, SCMG.UnmarshalBinary, hs, hssc, hlen]

/-- C5 witness: the theorem applied to the SSC message of scenario S2 and to
the first five octets of its encoding, which fail to decode. -/
theorem c5_scmg_length_witness :
    ParseSCMG [6, 8, 52, 18, 0] = .error .eof :=
  (c5_scmg_length ⟨6, 8, 4660, 0, 5⟩ [6, 8, 52, 18, 0]).2.2.2 (by decide)
    (by decide)

/-- C6: SCMG point-code endianness. Every buffer MarshalTo produces carries
the affected point code little-endian at offsets 2 and 3, and the SSA
message of scenario S1 encodes to exactly 01 08 34 12 00. -/
theorem c6_scmg_endianness (s : SCMG) (b : List Nat) (hp : s.AffectedPC < 65536) :
    (∀ w, s.MarshalTo b = .ok w → byteAt w 2 + 256 * byteAt w 3 = s.AffectedPC) ∧
    SCMG.MarshalBinary ⟨1, 8, 4660, 0, 0⟩ = .ok [1, 8, 52, 18, 0] := by
  refine ⟨?_, by rfl⟩
  intro w hw
  simp only [SCMG.MarshalTo] at hw
  by_cases hb : b.length < s.MarshalLen
  · simp [if_pos hb] at hw
  · simp only [if_neg hb, Except.ok.injEq] at hw
    subst hw
    simp [byteAt]
    omega

/-- C6 witness: the endianness equation at the concrete encoding of the SSA
message with point code 0x1234. -/
theorem c6_scmg_endianness_witness :
    byteAt [1, 8, 52, 18, 0] 2 + 256 * byteAt [1, 8, 52, 18, 0] 3 = 4660 :=
  (c6_scmg_endianness ⟨1, 8, 4660, 0, 0⟩ (List.replicate 5 0) (by decide)).1
    [1, 8, 52, 18, 0] (by rfl)

/-- C10: SCMG decoding is not atomic on error. Decoding a 5-octet buffer
whose first octet is SSC returns the UnexpectedEnd error, yet the receiver
fields Type, AffectedSSN, AffectedPC and SubsystemMultiplicityIndicator have
already been overwritten from the buffer; only SCCPCongestionLevel keeps the
previous value of the receiver. -/
theorem c10_scmg_partial_update (s0 : SCMG) (a p2 p3 m : Nat) :
    SCMG.UnmarshalBinary s0 [SCMGTypeSSC, a, p2, p3, m] =
      (⟨SCMGTypeSSC, a, p2 + 256 * p3, m, s0.scl⟩, some .eof) := by
  simp [SCMG.UnmarshalBinary, byteAt]

/-! ## SSN state manager (sccp.go and the management handlers)

The Go manager keys its entry map by the string produced from the pair
(point code, SSN) by a decimal format with a colon separator, which is
injective in the pair; the embedding keys by the pair directly, as an
association list. Timers, wall-clock timestamps and locks are outside the
shallow embedding; the optional callback slots are modelled by the event
list a handler emits, one event per callback invocation, in invocation
order. -/

/-- SSNState of the source: Prohibited is the zero value. -/
inductive SSNState
  | prohibited
  | allowed
deriving DecidableEq

/-- StateChangeReason of the source. -/
inductive StateChangeReason
  | userInitiated
  | networkInitiated
  | testTimeout
  | testResponse
deriving DecidableEq

/-- BroadcastType of the source. -/
inductive BroadcastType
  | ssa
  | ssp
deriving DecidableEq

/-- SSNEntry of the source, without the timer handle, the timestamp and the
lock. TestInterval is a duration in nanoseconds as in Go. -/
structure SSNEntry where
  SSN : Nat
  PointCode : Nat
  State : SSNState
  IsLocal : Bool
  TestInterval : Nat
  TestRetries : Nat
  MaxTestRetries : Nat
deriving DecidableEq

/-- SSNStateManager of the source, without the lock and the callback slots. -/
structure SSNStateManager where
  entries : List ((Nat × Nat) × SSNEntry)
  DefaultTestInterval : Nat
  MaxTestInterval : Nat
  MaxTestRetries : Nat
deriving DecidableEq

/-- Lookup in the entry map. -/
def findEntry : List ((Nat × Nat) × SSNEntry) → Nat → Nat → Option SSNEntry
  | [], _, _ => none
  | (k, e) :: rest, pc, ssn =>
      if k = (pc, ssn) then some e else findEntry rest pc ssn

/-- Go map assignment entries[key] = entry: replace the binding if the key
is present, append it otherwise. -/
def setEntry : List ((Nat × Nat) × SSNEntry) → Nat → Nat → SSNEntry →
    List ((Nat × Nat) × SSNEntry)
  | [], pc, ssn, e => [((pc, ssn), e)]
  | (k, e0) :: rest, pc, ssn, e =>
      if k = (pc, ssn) then (k, e) :: rest else (k, e0) :: setEntry rest pc ssn e

/-- GetEntry of the source. -/
def SSNStateManager.GetEntry (sm : SSNStateManager) (pc ssn : Nat) :
    Option SSNEntry :=
  findEntry sm.entries pc ssn

/-- AddEntry of the source: unconditionally builds a fresh Prohibited entry
with the manager defaults and stores it under the key, then returns it. -/
def SSNStateManager.AddEntry (sm : SSNStateManager) (pc ssn : Nat)
    (isLocal : Bool) : SSNStateManager × SSNEntry :=
  let entry : SSNEntry :=
    { SSN := ssn
      PointCode := pc
      State := .prohibited
      IsLocal := isLocal
      TestInterval := sm.DefaultTestInterval
      TestRetries := 0
      MaxTestRetries := sm.MaxTestRetries }
  ({ sm with entries := setEntry sm.entries pc ssn entry }, entry)

/-- Errors the state-manager operations return. -/
inductive ManagerErr
  | entryNotFound
  | notLocal
deriving DecidableEq

/-- One callback invocation: OnStateChange or OnBroadcast with the
arguments the source passes. -/
inductive ManagerEvent
  | stateChange (e : SSNEntry) (st : SSNState) (r : StateChangeReason)
  | broadcast (b : BroadcastType) (e : SSNEntry)
deriving DecidableEq

/-- HandleUserInService of the source: missing entry fails, a remote entry
fails, a prohibited local entry is marked allowed and the two callbacks fire
in order, an already allowed local entry is left untouched with no
callback. -/
def SSNStateManager.HandleUserInService (sm : SSNStateManager) (pc ssn : Nat) :
    Except ManagerErr (SSNStateManager × List ManagerEvent) :=
  match sm.GetEntry pc ssn with
  | none => .error .entryNotFound
  | some e =>
    if e.IsLocal = false then .error .notLocal
    else if e.State = .prohibited then
      let e2 := { e with State := .allowed }
      .ok ({ sm with entries := setEntry sm.entries pc ssn e2 },
           [.stateChange e2 .allowed .userInitiated, .broadcast .ssa e2])
    else .ok (sm, [])

/-- After a map store, lookup of the same key returns the stored entry. -/
theorem findEntry_setEntry (l : List ((Nat × Nat) × SSNEntry)) (pc ssn : Nat)
    (e : SSNEntry) : findEntry (setEntry l pc ssn e) pc ssn = some e := by
  induction l with
  | nil => simp [setEntry, findEntry]
  | cons hd tl ih =>
    obtain ⟨k, e0⟩ := hd
    by_cases hk : k = (pc, ssn) <;> simp [setEntry, findEntry, hk, ih]

/-- C7 counterexample: a manager already holding an Allowed entry under
(10, 7). AddEntry on that key does not return the existing entry, so the
half of the claim demanding the existing entry back is false on the code. -/
theorem c7_counterexample :
    (SSNStateManager.GetEntry
        ⟨[((10, 7), ⟨7, 10, .allowed, true, 99, 2, 9⟩)], 30, 300, 5⟩ 10 7 =
      some ⟨7, 10, .allowed, true, 99, 2, 9⟩) ∧
    ((SSNStateManager.AddEntry
        ⟨[((10, 7), ⟨7, 10, .allowed, true, 99, 2, 9⟩)], 30, 300, 5⟩ 10 7
        true).2 ≠ ⟨7, 10, .allowed, true, 99, 2, 9⟩) :=
  ⟨rfl, by decide⟩

/-- C7 as amended: AddEntry always installs and returns a fresh entry in
state Prohibited carrying the manager default test interval, zero retries
and the manager retry maximum, overwriting any entry already stored under
(pc, ssn); it never returns a previously stored entry. -/
theorem c7_addentry_fresh (sm : SSNStateManager) (pc ssn : Nat) (loc : Bool)
    (sm2 : SSNStateManager) (e : SSNEntry)
    (h : sm.AddEntry pc ssn loc = (sm2, e)) :
    e = ⟨ssn, pc, .prohibited, loc, sm.DefaultTestInterval, 0,
          sm.MaxTestRetries⟩ ∧
    sm2.GetEntry pc ssn = some e := by
  simp only [SSNStateManager.AddEntry, Prod.mk.injEq] at h
  obtain ⟨hsm, he⟩ := h
  subst hsm
  subst he
  exact ⟨rfl, findEntry_setEntry sm.entries pc ssn _⟩

/-- C7 witness: the amended theorem at a concrete fresh manager. -/
theorem c7_addentry_fresh_witness :
    (⟨2, 1, .prohibited, false, 30, 0, 5⟩ : SSNEntry) =
        ⟨2, 1, .prohibited, false, 30, 0, 5⟩ ∧
    SSNStateManager.GetEntry
        (⟨[((1, 2), ⟨2, 1, .prohibited, false, 30, 0, 5⟩)], 30, 300, 5⟩ :
          SSNStateManager) 1 2 =
      some ⟨2, 1, .prohibited, false, 30, 0, 5⟩ :=
  c7_addentry_fresh ⟨[], 30, 300, 5⟩ 1 2 false _ _ rfl

/-- C8: HandleUserInService semantics. A missing entry fails with the
not-found error; a remote entry fails with the not-local error; a local
Prohibited entry becomes Allowed and OnStateChange fires with reason
UserInitiated followed by an SSA OnBroadcast; a local Allowed entry leaves
the manager unchanged with no callback and no error. -/
theorem c8_handle_user_in_service (sm : SSNStateManager) (pc ssn : Nat) :
    (sm.GetEntry pc ssn = none →
      sm.HandleUserInService pc ssn = .error .entryNotFound) ∧
    (∀ e, sm.GetEntry pc ssn = some e → e.IsLocal = false →
      sm.HandleUserInService pc ssn = .error .notLocal) ∧
    (∀ e, sm.GetEntry pc ssn = some e → e.IsLocal = true →
      e.State = .prohibited →
      sm.HandleUserInService pc ssn =
        .ok ({ sm with
                entries := setEntry sm.entries pc ssn { e with State := .allowed } },
             [.stateChange { e with State := .allowed } .allowed .userInitiated,
              .broadcast .ssa { e with State := .allowed }])) ∧
    (∀ e, sm.GetEntry pc ssn = some e → e.IsLocal = true →
      e.State = .allowed → sm.HandleUserInService pc ssn = .ok (sm, [])) := by
  refine ⟨?_, ?_, ?_, ?_⟩
  · intro h
    simp [SSNStateManager.HandleUserInService, h]
  · intro e he hl
    simp [SSNStateManager.HandleUserInService, he, hl]
  · intro e he hl hs
    simp [SSNStateManager.HandleUserInService, he, hl, hs]
  · intro e he hl hs
    simp [SSNStateManager.HandleUserInService, he, hl, hs]

/-- C8 witness: the transition conjunct at a manager holding a local
Prohibited entry under (1, 2). -/
theorem c8_handle_user_in_service_witness :
    SSNStateManager.HandleUserInService
        (⟨[((1, 2), ⟨2, 1, .prohibited, true, 30, 0, 5⟩)], 30, 300, 5⟩ :
          SSNStateManager) 1 2 =
      .ok (⟨[((1, 2), ⟨2, 1, .allowed, true, 30, 0, 5⟩)], 30, 300, 5⟩,
           [.stateChange ⟨2, 1, .allowed, true, 30, 0, 5⟩ .allowed .userInitiated,
            .broadcast .ssa ⟨2, 1, .allowed, true, 30, 0, 5⟩]) :=
  (c8_handle_user_in_service
      ⟨[((1, 2), ⟨2, 1, .prohibited, true, 30, 0, 5⟩)], 30, 300, 5⟩ 1 2).2.2.1
    ⟨2, 1, .prohibited, true, 30, 0, 5⟩ rfl rfl rfl

/-! ## UDT (SCCP Unitdata, udt.go)

The address, data and protocol-class parameters live in the params package
of the repository, outside the analysed sources; their codecs are modelled
from the interface contracts of the specification (length-prefixed bodies,
one-octet protocol class). -/

/-- Modelled from the spec: params.ProtocolClass, built by NewProtocolClass
from a class number and the return-on-error flag. -/
structure ProtocolClass where
  cls : Nat
  returnOnError : Bool
deriving DecidableEq

/-- Modelled from the spec: the octet params.ProtocolClass.Write emits, low
nibble the class, bit 0x80 the return-on-error option. -/
def ProtocolClass.octet (p : ProtocolClass) : Nat :=
  p.cls % 16 + (if p.returnOnError then 128 else 0)

/-- Modelled from the spec: params.PartyAddress, reduced to the octets of
the address body that follow its length octet. -/
structure PartyAddress where
  body : List Nat
deriving DecidableEq

/-- Modelled from the spec: params.PartyAddress.MarshalLen counts the length
octet plus the body, 12 octets for an 11-octet address body. -/
def PartyAddress.MarshalLen (pa : PartyAddress) : Nat := 1 + pa.body.length

/-- Modelled from the spec: the octets params.PartyAddress.Write emits, the
body length octet followed by the body. -/
def PartyAddress.writeOctets (pa : PartyAddress) : List Nat :=
  pa.body.length % 256 :: pa.body

/-- Modelled from the spec: params.Data, raw payload octets. -/
structure DataParam where
  payload : List Nat
deriving DecidableEq

/-- Modelled from the spec: params.Data.MarshalLen, the length octet plus
the payload. -/
def DataParam.MarshalLen (d : DataParam) : Nat := 1 + d.payload.length

/-- Modelled from the spec: the octets params.Data.Write emits. -/
def DataParam.writeOctets (d : DataParam) : List Nat :=
  d.payload.length % 256 :: d.payload

/-- Wire value of MsgTypeUDT. -/
def MsgTypeUDT : Nat := 9

/-- The UDT record of the source. Field typ is the Go field Type; the SLS
field is carried but never put on the wire by the codec. -/
structure UDT where
  typ : Nat
  protocolClass : ProtocolClass
  SLS : Nat
  CalledPartyAddress : PartyAddress
  CallingPartyAddress : PartyAddress
  Data : DataParam
  ptr1 : Nat
  ptr2 : Nat
  ptr3 : Nat

/-- NewUDT of the source: ptr1 is 3 and each further pointer adds the
MarshalLen of the preceding address minus one, in uint8 arithmetic (the
mod 256 makes the Go byte wrap explicit; adding 255 is the uint8
subtraction of one). -/
def NewUDT (pcls : Nat) (retOnErr : Bool) (cdpa cgpa : PartyAddress)
    (data : List Nat) : UDT :=
  let p1 := 3
  let p2 := (p1 + cdpa.MarshalLen % 256 + 255) % 256
  let p3 := (p2 + cgpa.MarshalLen % 256 + 255) % 256
  { typ := MsgTypeUDT
    protocolClass := ⟨pcls, retOnErr⟩
    SLS := 0
    CalledPartyAddress := cdpa
    CallingPartyAddress := cgpa
    Data := ⟨data⟩
    ptr1 := p1
    ptr2 := p2
    ptr3 := p3 }

/-- UDT.MarshalLen of the source: type, protocol class, the SLS octet it
budgets but never writes, three pointers, a hard-coded 12 octets per
address, and a length octet plus the data parameter. -/
def UDT.MarshalLen (u : UDT) : Nat :=
  1 + 1 + 1 + 3 + (1 + 11) + (1 + 11) + (1 + u.Data.MarshalLen)

/-- Overwrite of the head of a region by a parameter writer: the written
octets replace the start of the region, the tail of the region survives. -/
def overwriteRegion (vs region : List Nat) : List Nat :=
  vs ++ region.drop vs.length

/-- UDT.MarshalTo of the source: type at offset 0, the protocol-class octet
at offset 1, the three pointers at offsets 2 to 4, then the three
length-prefixed parameters written into the regions the Go code slices at
cdpaEnd = ptr2 + 3 and cgpaEnd = ptr3 + 4 (uint8 sums). A slice whose
bounds leave the buffer is the Go panic, outOfRange here; a region too
small for its parameter is the UnexpectedEnd error of the sub-codec. -/
def UDT.MarshalTo (u : UDT) (b : List Nat) : Except CodecErr (List Nat) :=
  let l := b.length
  if l < 6 then .error .eof
  else
    let cdpaEnd := (u.ptr2 % 256 + 3) % 256
    let cgpaEnd := (u.ptr3 % 256 + 4) % 256
    if cdpaEnd < 5 ∨ l < cdpaEnd then .error .outOfRange
    else if cdpaEnd - 5 < u.CalledPartyAddress.MarshalLen then .error .eof
    else if cgpaEnd < cdpaEnd ∨ l < cgpaEnd then .error .outOfRange
    else if cgpaEnd - cdpaEnd < u.CallingPartyAddress.MarshalLen then .error .eof
    else if l - cgpaEnd < u.Data.MarshalLen then .error .eof
    else .ok ([u.typ % 256, u.protocolClass.octet, u.ptr1 % 256,
               u.ptr2 % 256, u.ptr3 % 256]
          ++ overwriteRegion u.CalledPartyAddress.writeOctets (sliceL b 5 cdpaEnd)
          ++ overwriteRegion u.CallingPartyAddress.writeOctets
               (sliceL b cdpaEnd cgpaEnd)
          ++ overwriteRegion u.Data.writeOctets (sliceL b cgpaEnd l))

/-- UDT.MarshalBinary of the source: MarshalTo into a fresh zero buffer of
MarshalLen octets. -/
def UDT.MarshalBinary (u : UDT) : Except CodecErr (List Nat) :=
  u.MarshalTo (List.replicate u.MarshalLen 0)

/-- Modelled from the spec: params.ParseCalledPartyAddress and
params.ParseCallingPartyAddress on a length-prefixed slice. -/
def ParsePartyAddress (s : List Nat) : Except CodecErr PartyAddress :=
  match s with
  | [] => .error .eof
  | L :: rest => if rest.length < L then .error .eof else .ok ⟨rest.take L⟩

/-- Modelled from the spec: params.Data.Read on a length-prefixed slice. -/
def DataRead (s : List Nat) : Except CodecErr (List Nat) :=
  match s with
  | [] => .error .eof
  | L :: rest => if rest.length < L then .error .eof else .ok (rest.take L)

/-- The fields UDT.UnmarshalBinary assigns on success. -/
structure UDTParsed where
  typ : Nat
  ptr1 : Nat
  ptr2 : Nat
  ptr3 : Nat
  called : PartyAddress
  calling : PartyAddress
  data : List Nat
deriving DecidableEq

/-- UDT.UnmarshalBinary of the source: the three pointers are read from
offsets 1 to 3 (no protocol-class octet is consumed), the Called Party
Address is located through ptr1 alone, and the Calling Party Address and
the Data are parsed from the octets directly following the previous
parameter, ignoring ptr2 and ptr3 for positioning. -/
def UDT.UnmarshalBinary (b : List Nat) : Except CodecErr UDTParsed :=
  let l := b.length
  if l ≤ 4 then .error .eof
  else
    let typ := byteAt b 0
    let ptr1 := byteAt b 1
    let ptr2 := byteAt b 2
    let ptr3 := byteAt b 3
    let offsetPtr1 := 1 + ptr1
    if l < offsetPtr1 + 1 then .error .eof
    else
      let cdpaLen := byteAt b offsetPtr1
      let cdpaEnd := offsetPtr1 + cdpaLen + 1
      let offsetPtr2 := cdpaEnd
      if l < offsetPtr2 + 1 then .error .eof
      else
        let cgpaLen := byteAt b offsetPtr2
        let cgpaEnd := offsetPtr2 + cgpaLen + 1
        let offsetPtr3 := cgpaEnd
        if l < offsetPtr3 + 1 then .error .eof
        else
          let dataLen := byteAt b offsetPtr3
          let dataEnd := offsetPtr3 + dataLen + 1
          if l < cdpaEnd ∨ l < cgpaEnd ∨ l < dataEnd then .error .eof
          else
            match ParsePartyAddress (sliceL b offsetPtr1 cdpaEnd) with
            | .error e => .error e
            | .ok cd =>
              match ParsePartyAddress (sliceL b offsetPtr2 cgpaEnd) with
              | .error e => .error e
              | .ok cg =>
                match DataRead (sliceL b offsetPtr3 dataEnd) with
                | .error e => .error e
                | .ok d => .ok ⟨typ, ptr1, ptr2, ptr3, cd, cg, d⟩

/-- The UDT of scenario S3: class 1 with return on error, 11-octet called
and calling address bodies, data AA BB CC. -/
def udtS3 : UDT :=
  NewUDT 1 true ⟨List.replicate 11 17⟩ ⟨List.replicate 11 34⟩ [170, 187, 204]

/-- The frame MarshalBinary emits for udtS3. -/
def udtS3Frame : List Nat :=
  [9, 129, 3, 14, 25, 11] ++ List.replicate 11 17 ++ [11] ++
    List.replicate 11 34 ++ [3, 170, 187, 204, 0, 0]

/-- C1: the UDT round-trip fails on the code. MarshalBinary on the
well-formed scenario-S3 UDT succeeds, yet UnmarshalBinary on the very frame
it produced returns the UnexpectedEnd error: the encoder puts the
protocol-class octet 0x81 at offset 1 and the pointers at offsets 2 to 4,
while the decoder takes offset 1 as ptr1 and so looks for the Called Party
Address at offset 130, past the 35-octet frame. -/
theorem c1_udt_roundtrip_fails_on_code :
    UDT.MarshalBinary udtS3 = .ok udtS3Frame ∧
    UDT.UnmarshalBinary udtS3Frame = .error .eof :=
  ⟨by rfl, by rfl⟩

/-- The scenario-S3 frame with the protocol-class octet replaced by the
invalid class value 2. -/
def udtClass2Frame : List Nat :=
  [9, 2, 3, 14, 25, 11] ++ List.replicate 11 17 ++ [11] ++
    List.replicate 11 34 ++ [3, 170, 187, 204, 0, 0]

/-- C2: decoding a valid UDT frame whose protocol-class octet holds the
invalid class 2 does not produce an invalid-protocol-class failure: the
decoder never inspects that octet as a class, it consumes it as ptr1 and
here fails with the UnexpectedEnd error instead. -/
theorem c2_invalid_class_not_rejected :
    byteAt udtClass2Frame 1 = 2 ∧
    UDT.UnmarshalBinary udtClass2Frame = .error .eof :=
  ⟨by rfl, by rfl⟩

/-- C3 counterexample: on the scenario-S3 encode the second pointer octet is
14, not the 15 the claim demands (and the third is 25, not 27). -/
theorem c3_counterexample :
    UDT.MarshalBinary udtS3 = .ok udtS3Frame ∧
    byteAt udtS3Frame 3 = 14 ∧ byteAt udtS3Frame 3 ≠ 15 ∧
    byteAt udtS3Frame 4 = 25 ∧ byteAt udtS3Frame 4 ≠ 27 :=
  ⟨by rfl, by rfl, by decide, by rfl, by decide⟩

/-- The byte vector MarshalTo produces for a NewUDT-built UDT whose
parameters fit the buffer: header, pointers, the three length-prefixed
parameters, then the untouched tail of the buffer. -/
def udtEncodedFrame (pcls : Nat) (ret : Bool) (cd cg : PartyAddress)
    (dt b : List Nat) : List Nat :=
  [9, ProtocolClass.octet ⟨pcls, ret⟩, 3, cd.body.length + 3,
    cd.body.length + cg.body.length + 3, cd.body.length]
    ++ (cd.body ++ ([cg.body.length] ++ (cg.body ++ ([dt.length % 256] ++
        (dt ++ b.drop (cd.body.length + cg.body.length + 8 + dt.length))))))

theorem marshalTo_NewUDT_shape (pcls : Nat) (ret : Bool) (cd cg : PartyAddress)
    (dt : List Nat) (b : List Nat)
    (hw : cd.body.length + cg.body.length + 7 ≤ 255)
    (hb : cd.body.length + cg.body.length + 8 + dt.length ≤ b.length) :
    (NewUDT pcls ret cd cg dt).MarshalTo b =
      .ok (udtEncodedFrame pcls ret cd cg dt b) := by
  simp only [UDT.MarshalTo, NewUDT, PartyAddress.MarshalLen, DataParam.MarshalLen,
    MsgTypeUDT, udtEncodedFrame]
  rw [show (3 + (1 + cd.body.length) % 256 + 255) % 256 = cd.body.length + 3 from by
    omega]
  rw [show (cd.body.length + 3 + (1 + cg.body.length) % 256 + 255) % 256 =
      cd.body.length + cg.body.length + 3 from by omega]
  rw [show (cd.body.length + 3) % 256 = cd.body.length + 3 from by omega]
  rw [show (cd.body.length + cg.body.length + 3) % 256 =
      cd.body.length + cg.body.length + 3 from by omega]
  rw [show (cd.body.length + 3 + 3) % 256 = cd.body.length + 6 from by omega]
  rw [show (cd.body.length + cg.body.length + 3 + 4) % 256 =
      cd.body.length + cg.body.length + 7 from by omega]
  rw [if_neg (by omega), if_neg (by omega), if_neg (by omega), if_neg (by omega),
    if_neg (by omega), if_neg (by omega)]
  congr 1
  unfold overwriteRegion sliceL PartyAddress.writeOctets DataParam.writeOctets
  dsimp only
  rw [show cd.body.length % 256 = cd.body.length from by omega,
    show cg.body.length % 256 = cg.body.length from by omega]
  simp only [List.length_cons]
  rw [show cd.body.length + 6 - 5 = cd.body.length + 1 from by omega,
    show cd.body.length + cg.body.length + 7 - (cd.body.length + 6) =
      cg.body.length + 1 from by omega]
  rw [List.drop_eq_nil_of_le (List.length_take_le _ _),
    List.drop_eq_nil_of_le (List.length_take_le _ _)]
  rw [List.take_of_length_le (le_of_eq (List.length_drop _ _))]
  rw [List.drop_drop]
  rw [show cd.body.length + cg.body.length + 7 + (dt.length + 1) =
      cd.body.length + cg.body.length + 8 + dt.length from by omega]
  simp [List.append_assoc]

theorem byteAt_append_left_skip (l1 l2 : List Nat) (k : Nat) :
    byteAt (l1 ++ l2) (l1.length + k) = byteAt l2 k := by
  induction l1 with
  | nil => simp [byteAt]
  | cons x xs ih =>
    simp only [List.cons_append, List.length_cons]
    rw [show xs.length + 1 + k = (xs.length + k) + 1 from by omega]
    rw [show byteAt (x :: (xs ++ l2)) ((xs.length + k) + 1) =
      byteAt (xs ++ l2) (xs.length + k) from rfl]
    exact ih

theorem byteAt_six_skip (a0 a1 a2 a3 a4 a5 : Nat) (X : List Nat) (k : Nat) :
    byteAt ([a0, a1, a2, a3, a4, a5] ++ X) (k + 6) = byteAt X k := rfl

theorem byteAt_one_skip (a : Nat) (X : List Nat) (k : Nat) :
    byteAt ([a] ++ X) (k + 1) = byteAt X k := rfl

theorem udtEncodedFrame_at3 (pcls : Nat) (ret : Bool) (cd cg : PartyAddress)
    (dt b : List Nat) :
    byteAt (udtEncodedFrame pcls ret cd cg dt b) 3 = cd.body.length + 3 := rfl

theorem udtEncodedFrame_at4 (pcls : Nat) (ret : Bool) (cd cg : PartyAddress)
    (dt b : List Nat) :
    byteAt (udtEncodedFrame pcls ret cd cg dt b) 4 =
      cd.body.length + cg.body.length + 3 := rfl

theorem udtEncodedFrame_calling_len (pcls : Nat) (ret : Bool)
    (cd cg : PartyAddress) (dt b : List Nat) :
    byteAt (udtEncodedFrame pcls ret cd cg dt b) (cd.body.length + 6) =
      cg.body.length := by
  unfold udtEncodedFrame
  rw [byteAt_six_skip]
  exact (byteAt_append_left_skip cd.body _ 0).trans rfl

theorem udtEncodedFrame_data_len (pcls : Nat) (ret : Bool)
    (cd cg : PartyAddress) (dt b : List Nat) :
    byteAt (udtEncodedFrame pcls ret cd cg dt b)
        (cd.body.length + cg.body.length + 1 + 6) = dt.length % 256 := by
  unfold udtEncodedFrame
  rw [byteAt_six_skip]
  rw [show cd.body.length + cg.body.length + 1 =
    cd.body.length + (cg.body.length + 1) from by omega]
  rw [byteAt_append_left_skip]
  rw [byteAt_one_skip]
  exact (byteAt_append_left_skip cg.body _ 0).trans rfl

theorem c3_pointer_invariants (pcls : Nat) (ret : Bool) (cd cg : PartyAddress)
    (dt : List Nat) (b : List Nat)
    (hw : cd.body.length + cg.body.length + 7 ≤ 255)
    (hd : dt.length ≤ 255)
    (hb : cd.body.length + cg.body.length + 8 + dt.length ≤ b.length) :
    ∃ w, (NewUDT pcls ret cd cg dt).MarshalTo b = .ok w ∧
      byteAt w 2 = 3 ∧
      byteAt w (2 + byteAt w 2) = cd.body.length ∧
      byteAt w 3 = cd.body.length + 3 ∧
      byteAt w (3 + byteAt w 3) = cg.body.length ∧
      byteAt w 4 = cd.body.length + cg.body.length + 3 ∧
      byteAt w (4 + byteAt w 4) = dt.length := by
  refine ⟨udtEncodedFrame pcls ret cd cg dt b,
    marshalTo_NewUDT_shape pcls ret cd cg dt b hw hb, rfl, rfl,
    udtEncodedFrame_at3 pcls ret cd cg dt b, ?_,
    udtEncodedFrame_at4 pcls ret cd cg dt b, ?_⟩
  · rw [udtEncodedFrame_at3]
    rw [show 3 + (cd.body.length + 3) = cd.body.length + 6 from by omega]
    exact udtEncodedFrame_calling_len pcls ret cd cg dt b
  · rw [udtEncodedFrame_at4]
    rw [show 4 + (cd.body.length + cg.body.length + 3) =
      cd.body.length + cg.body.length + 1 + 6 from by omega]
    rw [udtEncodedFrame_data_len]
    omega

/-- C3 witness: the amended pointer-invariant theorem at the scenario-S3
parameters, giving pointer octets 14 and 25 with correct targets. -/
theorem c3_pointer_invariants_witness :
    ∃ w, (NewUDT 1 true ⟨List.replicate 11 17⟩ ⟨List.replicate 11 34⟩
        [170, 187, 204]).MarshalTo (List.replicate 35 0) = .ok w ∧
      byteAt w 2 = 3 ∧ byteAt w (2 + byteAt w 2) = 11 ∧ byteAt w 3 = 14 ∧
      byteAt w (3 + byteAt w 3) = 11 ∧ byteAt w 4 = 25 ∧
      byteAt w (4 + byteAt w 4) = 3 :=
  c3_pointer_invariants 1 true ⟨List.replicate 11 17⟩ ⟨List.replicate 11 34⟩
    [170, 187, 204] (List.replicate 35 0) (by decide) (by decide) (by decide)

/-- The components of a decoded UDT the round-trip claims speak about:
message type, the two addresses and the data, without the stored pointer
octets. -/
def udtProj (p : UDTParsed) : Nat × PartyAddress × PartyAddress × List Nat :=
  (p.typ, p.called, p.calling, p.data)

theorem c9_ptr23_independence (a b : List Nat)
    (hlen : a.length = b.length)
    (h0 : byteAt a 0 = byteAt b 0)
    (h1 : byteAt a 1 = byteAt b 1)
    (hs : ∀ i, 4 ≤ i → byteAt a i = byteAt b i)
    (hp : 3 ≤ byteAt a 1) :
    Except.map udtProj (UDT.UnmarshalBinary a) =
      Except.map udtProj (UDT.UnmarshalBinary b) := by
  have hget : ∀ m, 4 ≤ m → a[m]? = b[m]? := by
    intro m hm
    by_cases hlt : m < a.length
    · have hlt2 : m < b.length := by omega
      have hv := hs m hm
      simp only [byteAt, List.getD_eq_getElem?_getD, List.getElem?_eq_getElem hlt,
        List.getElem?_eq_getElem hlt2, Option.getD_some] at hv
      rw [List.getElem?_eq_getElem hlt, List.getElem?_eq_getElem hlt2, hv]
    · rw [List.getElem?_eq_none (by omega), List.getElem?_eq_none (by omega)]
  have hdrop : ∀ i, 4 ≤ i → a.drop i = b.drop i := by
    intro i hi
    apply List.ext_getElem?
    intro n
    rw [List.getElem?_drop, List.getElem?_drop]
    exact hget (i + n) (by omega)
  have hslice : ∀ i j, 4 ≤ i → sliceL a i j = sliceL b i j := by
    intro i j hi
    unfold sliceL
    rw [hdrop i hi]
  simp only [UDT.UnmarshalBinary]
  rw [← hlen, ← h0, ← h1]
  rw [show byteAt b (1 + byteAt a 1) = byteAt a (1 + byteAt a 1) from
    (hs _ (by omega)).symm]
  rw [show byteAt b (1 + byteAt a 1 + byteAt a (1 + byteAt a 1) + 1) =
      byteAt a (1 + byteAt a 1 + byteAt a (1 + byteAt a 1) + 1) from
    (hs _ (by omega)).symm]
  rw [show byteAt b (1 + byteAt a 1 + byteAt a (1 + byteAt a 1) + 1 +
        byteAt a (1 + byteAt a 1 + byteAt a (1 + byteAt a 1) + 1) + 1) =
      byteAt a (1 + byteAt a 1 + byteAt a (1 + byteAt a 1) + 1 +
        byteAt a (1 + byteAt a 1 + byteAt a (1 + byteAt a 1) + 1) + 1) from
    (hs _ (by omega)).symm]
  rw [← hslice _ _ (by omega), ← hslice _ _ (by omega), ← hslice _ _ (by omega)]
  set n1 := byteAt a 1 with hn1
  set n2 := byteAt a (1 + n1) with hn2
  set n3 := byteAt a (1 + n1 + n2 + 1) with hn3
  set n4 := byteAt a (1 + n1 + n2 + 1 + n3 + 1) with hn4
  split_ifs <;> try rfl
  cases ParsePartyAddress (sliceL a (1 + n1) (1 + n1 + n2 + 1)) <;> try rfl
  cases ParsePartyAddress (sliceL a (1 + n1 + n2 + 1) (1 + n1 + n2 + 1 + n3 + 1)) <;>
    try rfl
  cases DataRead (sliceL a (1 + n1 + n2 + 1 + n3 + 1)
    (1 + n1 + n2 + 1 + n3 + 1 + n4 + 1)) <;> rfl

/-- First buffer of the C9 counterexample: ptr1 is 1, so the Called Party
Address length octet sits at offset 2, inside the pointer area. -/
def c9BufA : List Nat := [9, 1, 1, 170, 0, 0, 1, 204]

/-- Second buffer: identical except at offsets 2 and 3. -/
def c9BufB : List Nat := [9, 1, 0, 0, 0, 0, 1, 204]

/-- C9 counterexample: two buffers differing only at offsets 2 and 3 both
decode successfully yet yield different Called Party Addresses, because with
ptr1 below 3 the decoder reads offset 2 as the Called length octet. -/
theorem c9_counterexample :
    ¬ (∀ (a b : List Nat), a.length = b.length →
        (∀ i, i ≠ 2 → i ≠ 3 → byteAt a i = byteAt b i) →
        ∀ pa pb, UDT.UnmarshalBinary a = .ok pa →
          UDT.UnmarshalBinary b = .ok pb → pa.called = pb.called) := by
  intro h
  have hsame : ∀ i, i ≠ 2 → i ≠ 3 → byteAt c9BufA i = byteAt c9BufB i := by
    intro i h2 h3
    match i with
    | 0 => rfl
    | 1 => rfl
    | 2 => exact absurd rfl h2
    | 3 => exact absurd rfl h3
    | k + 4 => rfl
  have ha : UDT.UnmarshalBinary c9BufA = .ok ⟨9, 1, 1, 170, ⟨[170]⟩, ⟨[]⟩, []⟩ := by
    rfl
  have hb : UDT.UnmarshalBinary c9BufB = .ok ⟨9, 1, 0, 0, ⟨[]⟩, ⟨[]⟩, []⟩ := by
    rfl
  exact absurd (h c9BufA c9BufB rfl hsame _ _ ha hb) (by decide)

/-- C9 witness: the amended independence theorem at two concrete 7-octet
buffers with ptr1 = 3 differing at offsets 2 and 3. -/
theorem c9_ptr23_independence_witness :
    Except.map udtProj (UDT.UnmarshalBinary [9, 3, 1, 2, 0, 0, 0]) =
      Except.map udtProj (UDT.UnmarshalBinary [9, 3, 8, 9, 0, 0, 0]) :=
  c9_ptr23_independence [9, 3, 1, 2, 0, 0, 0] [9, 3, 8, 9, 0, 0, 0] rfl rfl rfl
    (fun i hi => by
      obtain ⟨k, rfl⟩ : ∃ k, i = k + 4 := ⟨i - 4, by omega⟩
      rfl)
    (by decide)
